import Mathlib

/-!
Verification development for the jwt-flex library (TypeScript).

The definitions below are a shallow embedding of the library's core:
`src/core/token.ts` (verifyToken), `src/core/extractors.ts`
(fromAuthHeaderAsBearerToken, fromQueryParameter, fromCookie, extractToken),
`src/middleware/node.ts` (verifyRequest) and `src/middleware/express.ts`
(expressMiddleware).  JavaScript strings are modelled as Lean `String`s and
every string operation the code uses (split, trim, toLowerCase, includes)
is implemented explicitly over the character list, mirroring the JavaScript
semantics.  Thrown JavaScript values are modelled by an explicit `Thrown`
type and fallible computations return `Except Thrown`.
-/

set_option maxRecDepth 4096

/-- Characters the JavaScript `String.prototype.trim` removes (ASCII subset;
the inputs in this development are ASCII). -/
def isJsSpace (c : Char) : Bool :=
  c == ' ' || c == '\t' || c == '\n' || c == '\r'

/-- Splits a character list at every occurrence of `c`, like the JavaScript
`s.split(c)` for a one-character separator: `"".split(c)` gives `[""]`,
adjacent separators give empty pieces. -/
def splitChars (c : Char) : List Char → List (List Char)
  | [] => [[]]
  | x :: xs =>
    let r := splitChars c xs
    if x == c then [] :: r
    else
      match r with
      | [] => [[x]]
      | h :: t => (x :: h) :: t

/-- JavaScript `s.split(c)` for a one-character separator. -/
def jsSplit (c : Char) (s : String) : List String :=
  (splitChars c s.data).map String.mk

/-- JavaScript `trim` (leading and trailing whitespace removed). -/
def jsTrim (s : String) : String :=
  String.mk (((s.data.dropWhile isJsSpace).reverse.dropWhile isJsSpace).reverse)

/-- ASCII lower-casing of one character, as JavaScript `toLowerCase` acts on
the ASCII range. -/
def lowerChar (c : Char) : Char :=
  if 'A' ≤ c ∧ c ≤ 'Z' then Char.ofNat (c.toNat + 32) else c

/-- JavaScript `toLowerCase` (ASCII range). -/
def jsToLower (s : String) : String :=
  String.mk (s.data.map lowerChar)

/-- Boolean prefix test on character lists. -/
def isPrefixCh : List Char → List Char → Bool
  | [], _ => true
  | _ :: _, [] => false
  | a :: as, b :: bs => a == b && isPrefixCh as bs

/-- Boolean contiguous-substring test on character lists. -/
def hasSub (pat : List Char) : List Char → Bool
  | [] => pat.isEmpty
  | c :: tl => isPrefixCh pat (c :: tl) || hasSub pat tl

/-- JavaScript `s.includes(pat)`. -/
def jsIncludes (s pat : String) : Bool :=
  hasSub pat.data s.data

/-- A value thrown by JavaScript code: either an `Error` instance (identified
by its constructor name and carrying a message) or a non-`Error` value. -/
inductive Thrown where
  | err (ctorName message : String)
  | nonError (value : String)
deriving DecidableEq, Repr

/-- A header value, which per the request types may be a string or a string
array (the header record maps names to string, string array or undefined). -/
inductive HVal where
  | str (s : String)
  | strs (ls : List String)
deriving DecidableEq, Repr

/-- The header fields the extractors read (`authorization`, `host`,
`cookie`).  Node lowercases incoming header names, so the fields stand for
the canonical lowercase names. -/
structure HeadersModel where
  authorization : Option HVal := none
  host : Option String := none
  cookie : Option String := none
deriving DecidableEq, Repr

/-- A request-like object as accepted by the extractors: either a Node
`IncomingMessage` (with a raw `url` and headers) or a plain framework
request object with optional `headers`, pre-parsed `query` and pre-parsed
`cookies` maps.  The extractors branch on `req instanceof IncomingMessage`. -/
inductive ReqLike where
  | incoming (url : Option String) (headers : HeadersModel)
  | plain (headers : Option HeadersModel)
      (query : Option (List (String × String)))
      (cookies : Option (List (String × String)))
deriving DecidableEq, Repr

/-- The headers of a request-like object (`req.headers`), absent when a
plain object has none. -/
def headersOf : ReqLike → Option HeadersModel
  | .incoming _ h => some h
  | .plain h _ _ => h

/-- The `authorization` header of a request-like object
(`req.headers?.authorization`). -/
def authHeaderOf (req : ReqLike) : Option HVal :=
  (headersOf req).bind (·.authorization)

/-- JavaScript truthiness of a `string | null` value: `null`, `undefined`
and the empty string are falsy. -/
def jsTruthyStr : Option String → Bool
  | none => false
  | some s => if s = "" then false else true

/-- JavaScript `x || null` on a `string | null | undefined` value. -/
def jsOrNull (o : Option String) : Option String :=
  if jsTruthyStr o then o else none

/-- An extractor: `(request-like) -> string | null`, and it may throw. -/
def Extractor : Type := ReqLike → Except Thrown (Option String)

/-- Embeds `fromAuthHeaderAsBearerToken()` from `src/core/extractors.ts`
(the nullary factory is collapsed: the embedded value is the returned
extractor).  It reads `req.headers?.authorization`; if that is a string it
splits on spaces and, when there are exactly two parts whose first is
`"bearer"` case-insensitively, returns the second; otherwise `null`. -/
def fromAuthHeaderAsBearerToken : Extractor := fun req =>
  .ok (match authHeaderOf req with
    | some (.str a) =>
      match jsSplit ' ' a with
      | [p0, p1] => if jsToLower p0 = "bearer" then some p1 else none
      | _ => none
    | _ => none)

/-- The searchable part of a parsed URL: its decoded query pairs, in order.
Percent-decoding is omitted (the inputs considered contain no escapes). -/
structure UrlModel where
  searchParams : List (String × String)
deriving DecidableEq, Repr

/-- Query-string parsing as `URLSearchParams` does: split on `&`, drop empty
pieces, split each piece at the first `=` (a piece with no `=` maps to the
empty value). -/
def parseQS (q : List Char) : List (String × String) :=
  (splitChars '&' q).filterMap (fun piece =>
    if piece.isEmpty then none
    else
      let k := piece.takeWhile (· != '=')
      let v := if piece.any (· == '=') then (piece.dropWhile (· != '=')).drop 1 else []
      some (String.mk k, String.mk v))

/-- Strips a leading `http://` or `https://` scheme, if present. -/
def stripScheme (cs : List Char) : Option (List Char) :=
  if isPrefixCh "http://".data cs then some (cs.drop 7)
  else if isPrefixCh "https://".data cs then some (cs.drop 8)
  else none

/-- Models the platform WHATWG `new URL(input, base)` constructor (an
external Node primitive, not repository code), restricted to the behaviours
the extractor exercises: an absolute `input` ignores the base, a relative
`input` is resolved against the base's authority; the constructor throws
(modelled as `none`) when the base has no recognised scheme or when the
effective authority is empty or contains a space, which is a forbidden host
code point per the URL Standard; otherwise the query is the part of the
effective URL between the first `?` and any `#`. -/
def parseURL (input base : String) : Option UrlModel :=
  let eff : Option (List Char) :=
    match stripScheme input.data with
    | some rest => some rest
    | none =>
      match stripScheme base.data with
      | some brest => some (brest ++ input.data)
      | none => none
  match eff with
  | none => none
  | some cs =>
    let authority := cs.takeWhile (fun c => !(c == '/' || c == '?' || c == '#'))
    if authority.isEmpty || authority.any (· == ' ') then none
    else
      let rest := cs.drop authority.length
      let q := ((rest.dropWhile (· != '?')).drop 1).takeWhile (· != '#')
      some ⟨parseQS q⟩

/-- The platform `searchParams.get`: the value of the first pair with the
requested key, or `null`. -/
def searchGet (u : UrlModel) (p : String) : Option String :=
  (u.searchParams.find? (fun kv => kv.1 == p)).map (·.2)

/-- The `TypeError` the platform `URL` constructor throws on invalid input. -/
def urlTypeError : Thrown := .err "TypeError" "Invalid URL"

/-- Embeds `fromQueryParameter(param)` from `src/core/extractors.ts`.  On an
`IncomingMessage` it builds `new URL(req.url || '', http:// + req.headers.host)`
— with a missing host rendered as the text "undefined" by the template
literal — and returns `url.searchParams.get(param)` unguarded, so a throwing
URL constructor propagates; on a plain object it returns
`req.query?.[param] || null`. -/
def fromQueryParameter (param : String) : Extractor := fun req =>
  match req with
  | .incoming url h =>
    match parseURL ((url.getD "")) ("http://" ++ (h.host.getD "undefined")) with
    | none => .error urlTypeError
    | some u => .ok (searchGet u param)
  | .plain _ q _ =>
    .ok (jsOrNull (q.bind (fun l => (l.find? (fun kv => kv.1 == param)).map (·.2))))

/-- One cookie segment as the code's `cookie.trim().split('=')` destructuring
produces it: the part before the first `=` as key, the part between the
first and second `=` (if any) as value, `undefined` (`none`) when the
segment has no `=`. -/
def cookieSegPair (seg : String) : String × Option String :=
  let parts := jsSplit '=' (jsTrim seg)
  (parts.headD "", parts[1]?)

/-- Whether the JavaScript-object model of the cookie accumulator already
has a property named `k`. -/
def hasKey (k : String) : List (String × Option String) → Bool
  | [] => false
  | p :: ps => p.1 == k || hasKey k ps

/-- Sets a key in the JavaScript-object model of the cookie accumulator:
overwrite an existing key in place, else append. -/
def objSet (acc : List (String × Option String)) (k : String) (v : Option String) :
    List (String × Option String) :=
  if hasKey k acc then acc.map (fun p => if p.1 == k then (k, v) else p)
  else acc ++ [(k, v)]

/-- Property access on the JavaScript-object model: `undefined` when the key
is absent or was stored as `undefined`. -/
def objGet : List (String × Option String) → String → Option String
  | [], _ => none
  | p :: ps, k => if p.1 == k then p.2 else objGet ps k

/-- Embeds the `reduce` in `fromCookie`: split the raw cookie header on `;`
and fold each trimmed segment's key/value into an object. -/
def parseCookieHeader (h : String) : List (String × Option String) :=
  (jsSplit ';' h).foldl
    (fun acc seg => objSet acc (cookieSegPair seg).1 (cookieSegPair seg).2) []

/-- Embeds `fromCookie(cookieName)` from `src/core/extractors.ts`.  On an
`IncomingMessage` it parses `req.headers.cookie` (if present) per
`parseCookieHeader` and returns the looked-up value `|| null`; on a plain
object it returns `req.cookies?.[cookieName] || null`. -/
def fromCookie (cookieName : String) : Extractor := fun req =>
  match req with
  | .incoming _ h =>
    .ok (jsOrNull (match h.cookie with
      | none => none
      | some c => objGet (parseCookieHeader c) cookieName))
  | .plain _ _ cs =>
    .ok (jsOrNull (cs.bind (fun l => (l.find? (fun kv => kv.1 == cookieName)).map (·.2))))

deriving instance DecidableEq for Except

/-- Options for `extractToken` (`TokenExtractorOptions`): an optional
extractor list. -/
structure TokenExtractorOptions where
  extractors : Option (List Extractor) := none

/-- The extractor loop inside `extractToken`: run each extractor in order
and return the first truthy (non-null, non-empty) result; a thrown error
propagates; `null` when the list is exhausted. -/
def runExtractors : List Extractor → ReqLike → Except Thrown (Option String)
  | [], _ => .ok none
  | e :: rest, req =>
    match e req with
    | .error t => .error t
    | .ok tok => if jsTruthyStr tok then .ok tok else runExtractors rest req

/-- Embeds `extractToken(req, options)` from `src/core/extractors.ts`: use
`options.extractors` or the default single bearer-header extractor, and run
them in order. -/
def extractToken (req : ReqLike) (options : TokenExtractorOptions) :
    Except Thrown (Option String) :=
  runExtractors (options.extractors.getD [fromAuthHeaderAsBearerToken]) req

/-- The outcome of the external verification primitive `jwt.verify` for a
given token, as the `catch` in `verifyToken` discriminates it: success with
a decoded payload, a `jwt.TokenExpiredError`, any other
`jwt.JsonWebTokenError` (carrying its message), or any other thrown value.
The first two constructors are disjoint because the code tests
`instanceof jwt.TokenExpiredError` (a subclass of `JsonWebTokenError`)
before `instanceof jwt.JsonWebTokenError`. -/
inductive PrimResult (α : Type) where
  | success (payload : α)
  | tokenExpired (message : String)
  | jwtError (message : String)
  | otherThrow (t : Thrown)

/-- The `TokenExpiredError` of `src/core/errors.ts` as a thrown value. -/
def tokenExpiredThrown : Thrown := .err "TokenExpiredError" "Token has expired"

/-- The `InvalidTokenError` of `src/core/errors.ts` as a thrown value. -/
def invalidTokenThrown : Thrown := .err "InvalidTokenError" "Invalid token signature"

/-- The `MalformedTokenError` of `src/core/errors.ts` as a thrown value. -/
def malformedTokenThrown : Thrown := .err "MalformedTokenError" "Malformed token"

/-- Embeds `verifyToken(token, options)` from `src/core/token.ts`.  The
external primitive `jwt.verify(token, secret, algorithms)` is abstracted as
a function from the token to a `PrimResult` (the secret and algorithm
allow-list only parametrise the primitive, so they are folded into it).  On
success the decoded payload is returned unchanged; a `jwt.TokenExpiredError`
becomes `TokenExpiredError`; any other `jwt.JsonWebTokenError` is classified
by lower-cased message substrings — "signature" gives `InvalidTokenError`,
else "malformed" or "invalid token" gives `MalformedTokenError`, else
`InvalidTokenError`; any other thrown value is re-thrown unchanged. -/
def verifyToken {α : Type} (prim : String → PrimResult α) (token : String) :
    Except Thrown α :=
  match prim token with
  | .success p => .ok p
  | .tokenExpired _ => .error tokenExpiredThrown
  | .jwtError message =>
    let msg := jsToLower message
    if jsIncludes msg "signature" then .error invalidTokenThrown
    else if jsIncludes msg "malformed" || jsIncludes msg "invalid token" then
      .error malformedTokenThrown
    else .error invalidTokenThrown
  | .otherThrow t => .error t

/-- The classification the spec states for a primitive `JsonWebTokenError`
message, written from the claim's words: if the message mentions
"signature", InvalidSignature; else if it mentions "malformed" or
"invalid token", Malformed; else InvalidSignature. -/
def classifySpec (message : String) : Thrown :=
  if jsIncludes (jsToLower message) "signature" then invalidTokenThrown
  else if jsIncludes (jsToLower message) "malformed"
      || jsIncludes (jsToLower message) "invalid token" then malformedTokenThrown
  else invalidTokenThrown

/-- The shared option shape of the adapters (`BaseJwtOptions`): the
credentials-required flag (defaulting to `true`, as the destructuring
`credentialsRequired = true` does) and the optional extractor list; the jwt
options only parametrise the verification primitive. -/
structure BaseJwtOptions where
  credentialsRequired : Bool := true
  extractors : Option (List Extractor) := none

/-- The structured error of `VerifyRequestResult`: a `TokenErrorCode` value
(modelled by its string value) plus a message. -/
structure TokenError where
  code : String
  message : String
deriving DecidableEq, Repr

/-- The result record of the raw-request verifier (`VerifyRequestResult`). -/
structure VerifyRequestResult (α : Type) where
  isAuthenticated : Bool
  payload : Option α := none
  error : Option TokenError := none

/-- The catch block of `verifyRequest` in `src/middleware/node.ts`: an
`Error` whose constructor name is one of the three classified names is
translated to a tagged failure record with the mapped code and message; any
other thrown value is re-thrown. -/
def verifyRequestCatch {α : Type} (t : Thrown) :
    Except Thrown (VerifyRequestResult α) :=
  match t with
  | .err n _ =>
    if n = "TokenExpiredError" then
      .ok { isAuthenticated := false,
            error := some { code := "TOKEN_EXPIRED", message := "Token has expired" } }
    else if n = "InvalidTokenError" then
      .ok { isAuthenticated := false,
            error := some { code := "TOKEN_INVALID", message := "Invalid token signature" } }
    else if n = "MalformedTokenError" then
      .ok { isAuthenticated := false,
            error := some { code := "TOKEN_MALFORMED", message := "Malformed token" } }
    else .error t
  | .nonError _ => .error t

/-- Embeds `verifyRequest(req, options)` from `src/middleware/node.ts`:
extract a token; if none was found, return a missing-token failure record
when credentials are required, else a bare authenticated record; otherwise
verify the token and return an authenticated record carrying the payload;
anything thrown inside the try block goes through the catch
(`verifyRequestCatch`). -/
def verifyRequest {α : Type} (prim : String → PrimResult α) (req : ReqLike)
    (options : BaseJwtOptions) : Except Thrown (VerifyRequestResult α) :=
  match extractToken req { extractors := options.extractors } with
  | .error t => verifyRequestCatch t
  | .ok none =>
    if options.credentialsRequired then
      .ok { isAuthenticated := false,
            error := some { code := "TOKEN_MISSING",
                            message := "No authorization token was found" } }
    else .ok { isAuthenticated := true }
  | .ok (some tok) =>
    if tok = "" then
      if options.credentialsRequired then
        .ok { isAuthenticated := false,
              error := some { code := "TOKEN_MISSING",
                              message := "No authorization token was found" } }
      else .ok { isAuthenticated := true }
    else
      match verifyToken prim tok with
      | .ok p => .ok { isAuthenticated := true, payload := some p }
      | .error t => verifyRequestCatch t

/-- The observable outcome of one invocation of the Express middleware:
respond with status 401 and a JSON body carrying an error message (the
continuation not invoked), invoke the continuation `next()` with the
decoded payload attached to `req.user` (or nothing attached), or invoke
`next(error)` with a thrown non-`Error` value. -/
inductive ExpressOutcome (α : Type) where
  | status401json (errorMessage : String)
  | callNext (user : Option α)
  | nextWithError (value : String)

/-- The catch block of the Express middleware in
`src/middleware/express.ts`: any `Error` instance is turned into a 401
response carrying the error's own message; a non-`Error` thrown value is
passed to `next(error)`. -/
def expressCatch {α : Type} (t : Thrown) : ExpressOutcome α :=
  match t with
  | .err _ m => .status401json m
  | .nonError v => .nextWithError v

/-- Embeds the handler returned by `expressMiddleware(options)` from
`src/middleware/express.ts`: extract a token; with no token and credentials
required, respond 401 with the `NoTokenError` message; with no token
otherwise, continue; else verify, attach the payload to `req.user` and
continue; anything thrown goes through the catch (`expressCatch`). -/
def expressMiddleware {α : Type} (prim : String → PrimResult α)
    (options : BaseJwtOptions) (req : ReqLike) : ExpressOutcome α :=
  match extractToken req { extractors := options.extractors } with
  | .error t => expressCatch t
  | .ok none =>
    if options.credentialsRequired then
      .status401json "No authorization token was found"
    else .callNext none
  | .ok (some tok) =>
    if tok = "" then
      if options.credentialsRequired then
        .status401json "No authorization token was found"
      else .callNext none
    else
      match verifyToken prim tok with
      | .ok p => .callNext (some p)
      | .error t => expressCatch t

deriving instance DecidableEq for PrimResult
deriving instance DecidableEq for VerifyRequestResult
deriving instance DecidableEq for ExpressOutcome

/-- First-occurrence lookup over raw cookie key/value pairs, returning the
stored (possibly undefined) value of the first pair with the given key. -/
def lookupFirst : List (String × Option String) → String → Option (Option String)
  | [], _ => none
  | p :: ps, k => if p.1 == k then some p.2 else lookupFirst ps k

/-- Last-occurrence-wins lookup over a list of raw cookie key/value pairs
(the value is optional because a segment without `=` carries none). -/
def lastWins (pairs : List (String × Option String)) (k : String) : Option String :=
  match lookupFirst pairs.reverse k with
  | none => none
  | some v => v

/-- The cookie lookup as the amended claim words it: split the raw header on
`;`, trim each segment, split it on `=` keeping the first two parts (a
segment without `=` carries an undefined value), let the last occurrence of
a key win, and normalize an undefined or empty value to null. -/
def fromCookieSpecAmended (name hdr : String) : Option String :=
  jsOrNull (lastWins ((jsSplit ';' hdr).map cookieSegPair) name)

/-! Helper lemmas about the JavaScript-object model of the cookie
accumulator. -/

/-- Overwriting key `a` in place does not change lookups of a different
key `k`. -/
theorem objGet_map_other (a : String) (v : Option String) (k : String)
    (hak : a ≠ k) :
    ∀ acc : List (String × Option String),
      objGet (acc.map (fun p => if p.1 == a then (a, v) else p)) k = objGet acc k := by
  intro acc
  induction acc with
  | nil => rfl
  | cons q qs ih =>
    simp only [List.map_cons]
    by_cases hq : (q.1 == a) = true
    · have hq' : q.1 = a := by simpa using hq
      have h1 : ((a : String) == k) = false := by simpa using hak
      have h2 : (q.1 == k) = false := by simpa [hq'] using hak
      rw [if_pos hq]
      simp only [objGet, h1, h2, Bool.false_eq_true, if_false]
      exact ih
    · have hq'' : (q.1 == a) = false := by
        cases hx : (q.1 == a) with
        | true => exact absurd hx hq
        | false => rfl
      rw [if_neg hq]
      by_cases hqk : (q.1 == k) = true
      · simp only [objGet, hqk, if_true]
      · have hqk' : (q.1 == k) = false := by
          cases hx : (q.1 == k) with
          | true => exact absurd hx hqk
          | false => rfl
        simp only [objGet, hqk', Bool.false_eq_true, if_false]
        exact ih

/-- After the in-place overwrite of a key that is present, reading that key
gives the new value. -/
theorem objGet_map_found (a : String) (v : Option String) :
    ∀ acc : List (String × Option String), hasKey a acc = true →
      objGet (acc.map (fun p => if p.1 == a then (a, v) else p)) a = v := by
  intro acc
  induction acc with
  | nil => intro h; simp [hasKey] at h
  | cons q qs ih =>
    intro h
    simp only [List.map_cons]
    by_cases hq : (q.1 == a) = true
    · rw [if_pos hq]
      simp only [objGet, beq_self_eq_true, if_true]
    · have hq'' : (q.1 == a) = false := by
        cases hx : (q.1 == a) with
        | true => exact absurd hx hq
        | false => rfl
      have h' : hasKey a qs = true := by simpa [hasKey, hq''] using h
      rw [if_neg hq]
      simp only [objGet, hq'', Bool.false_eq_true, if_false]
      exact ih h'

/-- Appending a fresh key reads back the appended value for that key and
leaves other keys unchanged. -/
theorem objGet_append (a : String) (v : Option String) (k : String) :
    ∀ acc : List (String × Option String), hasKey a acc = false →
      objGet (acc ++ [(a, v)]) k = if a = k then v else objGet acc k := by
  intro acc
  induction acc with
  | nil =>
    intro _
    by_cases hak : a = k
    · simp [objGet, hak]
    · simp [objGet, hak, show ((a : String) == k) = false from by simpa using hak]
  | cons q qs ih =>
    intro h
    have hq : (q.1 == a) = false := by
      cases hx : (q.1 == a) with
      | true => simp [hasKey, hx] at h
      | false => rfl
    have h' : hasKey a qs = false := by simpa [hasKey, hq] using h
    by_cases hqk : (q.1 == k) = true
    · have hak : a ≠ k := by
        intro he
        subst he
        simp [show q.1 = a from by simpa using hqk] at hq
      simp [objGet, hqk, hak]
    · simp [objGet, hqk, ih h']

/-- Setting a key in the object model then reading behaves like a pointwise
update: the set key reads back the new value, other keys are unchanged. -/
theorem objGet_objSet (acc : List (String × Option String)) (a : String)
    (v : Option String) (k : String) :
    objGet (objSet acc a v) k = if a = k then v else objGet acc k := by
  unfold objSet
  by_cases hf : hasKey a acc = true
  · rw [if_pos hf]
    by_cases hak : a = k
    · subst hak
      rw [objGet_map_found a v acc hf, if_pos rfl]
    · rw [objGet_map_other a v k hak acc, if_neg hak]
  · have hf' : hasKey a acc = false := by
      cases hx : hasKey a acc with
      | true => exact absurd hx hf
      | false => rfl
    rw [if_neg hf]
    exact objGet_append a v k acc hf'

/-- Lookup distributes over list append in the first-occurrence sense. -/
theorem lookupFirst_append (l₁ l₂ : List (String × Option String)) (k : String) :
    lookupFirst (l₁ ++ l₂) k =
      match lookupFirst l₁ k with
      | some v => some v
      | none => lookupFirst l₂ k := by
  induction l₁ with
  | nil => rfl
  | cons p ps ih =>
    by_cases hp : (p.1 == k) = true
    · simp [lookupFirst, hp]
    · simp [lookupFirst, hp, ih]

/-- Reading the accumulator built by folding `objSet` over a pair list gives
the last occurrence of the key, falling back to the initial accumulator. -/
theorem objGet_foldl (pairs : List (String × Option String)) :
    ∀ (acc : List (String × Option String)) (k : String),
      objGet (pairs.foldl (fun acc kv => objSet acc kv.1 kv.2) acc) k =
        match lookupFirst pairs.reverse k with
        | some v => v
        | none => objGet acc k := by
  induction pairs with
  | nil => intro acc k; rfl
  | cons p ps ih =>
    intro acc k
    simp only [List.foldl_cons, List.reverse_cons]
    rw [ih (objSet acc p.1 p.2) k, lookupFirst_append]
    cases hrev : lookupFirst ps.reverse k with
    | some v => rfl
    | none =>
      simp only []
      rw [objGet_objSet]
      by_cases hpk : (p.1 == k) = true
      · simp [lookupFirst, hpk, show p.1 = k from by simpa using hpk]
      · have : p.1 ≠ k := by simpa using hpk
        simp [lookupFirst, hpk, this]

/-- Folding the segment-wise `objSet` equals folding over the mapped
key/value pairs. -/
theorem foldl_objSet_map (segs : List String) :
    ∀ init : List (String × Option String),
      segs.foldl
          (fun acc seg => objSet acc (cookieSegPair seg).1 (cookieSegPair seg).2) init =
        (segs.map cookieSegPair).foldl (fun acc kv => objSet acc kv.1 kv.2) init := by
  induction segs with
  | nil => intro init; rfl
  | cons s ss ih => intro init; simp [List.foldl_cons, ih]

/-- The cookie `reduce` builds exactly the last-occurrence-wins mapping over
the trimmed, `=`-split segments. -/
theorem parseCookieHeader_lastWins (hdr k : String) :
    objGet (parseCookieHeader hdr) k =
      lastWins ((jsSplit ';' hdr).map cookieSegPair) k := by
  unfold parseCookieHeader lastWins
  rw [foldl_objSet_map, objGet_foldl]
  cases lookupFirst ((jsSplit ';' hdr).map cookieSegPair).reverse k with
  | some v => rfl
  | none => rfl

/-- C1: when the verification primitive fails, `verifyToken` classifies the
failure into exactly one of the three classified errors by the stated
precedence — a primitive expiry report gives `TokenExpiredError`; otherwise
a primitive JsonWebTokenError whose message mentions "signature" gives
`InvalidTokenError`, else one mentioning "malformed" or "invalid token"
gives `MalformedTokenError`, else `InvalidTokenError`; and any primitive
exception outside the recognized kinds propagates unchanged. -/
theorem verifyToken_failure_classification :
    ∀ (α : Type) (prim : String → PrimResult α) (token : String),
      (verifyToken prim token =
        match prim token with
        | .success p => .ok p
        | .tokenExpired _ => .error tokenExpiredThrown
        | .jwtError m => .error (classifySpec m)
        | .otherThrow t => .error t) ∧
      (∀ m : String,
        classifySpec m = invalidTokenThrown ∨ classifySpec m = malformedTokenThrown) := by
  intro α prim token
  constructor
  · cases h : prim token with
    | success p => simp [verifyToken, h]
    | tokenExpired m => simp [verifyToken, h]
    | jwtError m =>
      simp [verifyToken, h, classifySpec]
      split_ifs <;> rfl
    | otherThrow t => simp [verifyToken, h]
  · intro m
    unfold classifySpec
    by_cases h1 : jsIncludes (jsToLower m) "signature" = true
    · left; simp [h1]
    · by_cases h2 : (jsIncludes (jsToLower m) "malformed"
          || jsIncludes (jsToLower m) "invalid token") = true
      · right; simp [h1, h2]
      · left; simp [h1, h2]

/-- C2: demonstration that the extraction pipeline is not total, against the
claim (and the spec's central totality invariant): on an `IncomingMessage`
whose host header contains a space, the unguarded URL construction inside
`fromQueryParameter` throws (first two conjuncts), while the specifically
named stress cases — missing URL and missing host — indeed return null, and
the bearer, cookie and plain-object query extractors never throw (remaining
conjuncts). -/
theorem extractors_totality_code_bug :
    fromQueryParameter "token" (.incoming none { host := some "a b" }) = .error urlTypeError ∧
    extractToken (.incoming none { host := some "a b" })
        { extractors := some [fromQueryParameter "token"] } = .error urlTypeError ∧
    fromQueryParameter "token" (.incoming none { host := some "example.com" }) = .ok none ∧
    fromQueryParameter "token" (.incoming (some "/path") { }) = .ok none ∧
    (∀ req : ReqLike, ∃ o, fromAuthHeaderAsBearerToken req = .ok o) ∧
    (∀ (name : String) (req : ReqLike), ∃ o, fromCookie name req = .ok o) ∧
    (∀ (p : String) (h : Option HeadersModel) (q c : Option (List (String × String))),
      ∃ o, fromQueryParameter p (.plain h q c) = .ok o) := by
  refine ⟨by decide, by decide, by decide, by decide, ?_, ?_, ?_⟩
  · intro req; exact ⟨_, rfl⟩
  · intro name req
    cases req with
    | incoming u h => exact ⟨_, rfl⟩
    | plain h q c => exact ⟨_, rfl⟩
  · intro p h q c; exact ⟨_, rfl⟩

/-- C3: `extractToken` defaults to the single bearer-header extractor,
returns the result of the first extractor in list order with a non-empty
result independently of the extractors after it, skips an extractor that
returns nothing, and returns null when every extractor returns nothing. -/
theorem extractToken_first_nonempty :
    ∀ req : ReqLike,
      (extractToken req { } =
        extractToken req { extractors := some [fromAuthHeaderAsBearerToken] }) ∧
      (∀ (e : Extractor) (rest : List Extractor) (t : String),
        e req = .ok (some t) → t ≠ "" →
        extractToken req { extractors := some (e :: rest) } = .ok (some t)) ∧
      (∀ (e : Extractor) (rest : List Extractor),
        e req = .ok none →
        extractToken req { extractors := some (e :: rest) } =
          extractToken req { extractors := some rest }) ∧
      (∀ es : List Extractor, (∀ e ∈ es, e req = .ok none) →
        extractToken req { extractors := some es } = .ok none) := by
  intro req
  refine ⟨rfl, ?_, ?_, ?_⟩
  · intro e rest t he ht
    simp [extractToken, runExtractors, he, jsTruthyStr, ht]
  · intro e rest he
    simp [extractToken, runExtractors, he, jsTruthyStr]
  · intro es
    induction es with
    | nil => intro _; rfl
    | cons e rest ih =>
      intro h
      have he := h e (by simp)
      have hrest : ∀ e' ∈ rest, e' req = .ok none := fun e' he' => h e' (by simp [he'])
      simp only [extractToken, Option.getD] at ih ⊢
      simp [runExtractors, he, jsTruthyStr, ih hrest]

/-- Witness for C3: at the repository's own three-source request, the first
extractor in the configured order (the query extractor) wins. -/
theorem extractToken_first_nonempty_witness :
    extractToken
      (.incoming (some "/path?token=fromQuery")
        { authorization := some (.str "Bearer fromBearer"),
          host := some "example.com", cookie := some "token=fromCookie" })
      { extractors := some [fromQueryParameter "token", fromCookie "token",
          fromAuthHeaderAsBearerToken] } = .ok (some "fromQuery") := by
  exact (extractToken_first_nonempty _).2.1 (fromQueryParameter "token")
    [fromCookie "token", fromAuthHeaderAsBearerToken] "fromQuery" (by decide) (by decide)

/-- C7: the bearer-header extractor returns the second of exactly two
space-separated parts of the authorization header when the first part is
"bearer" case-insensitively, and returns null for a missing header, a
non-string header, a wrong scheme, or a part count other than two. -/
theorem fromAuthHeader_bearer_contract :
    ∀ (req : ReqLike) (a p0 p1 : String),
      (authHeaderOf req = some (.str a) → jsSplit ' ' a = [p0, p1] →
        jsToLower p0 = "bearer" →
        fromAuthHeaderAsBearerToken req = .ok (some p1)) ∧
      (authHeaderOf req = some (.str a) → jsSplit ' ' a = [p0, p1] →
        jsToLower p0 ≠ "bearer" →
        fromAuthHeaderAsBearerToken req = .ok none) ∧
      (authHeaderOf req = some (.str a) → (jsSplit ' ' a).length ≠ 2 →
        fromAuthHeaderAsBearerToken req = .ok none) ∧
      (authHeaderOf req = none → fromAuthHeaderAsBearerToken req = .ok none) ∧
      (∀ ls : List String, authHeaderOf req = some (.strs ls) →
        fromAuthHeaderAsBearerToken req = .ok none) := by
  intro req a p0 p1
  refine ⟨?_, ?_, ?_, ?_, ?_⟩
  · intro h1 h2 h3
    simp [fromAuthHeaderAsBearerToken, h1, h2, h3]
  · intro h1 h2 h3
    simp [fromAuthHeaderAsBearerToken, h1, h2, h3]
  · intro h1 h2
    simp only [fromAuthHeaderAsBearerToken, h1]
    cases hs : jsSplit ' ' a with
    | nil => rfl
    | cons x xs =>
      cases xs with
      | nil => rfl
      | cons y ys =>
        cases ys with
        | nil => exact absurd (by rw [hs]; rfl) h2
        | cons z zs => rfl
  · intro h1
    simp [fromAuthHeaderAsBearerToken, h1]
  · intro ls h1
    simp [fromAuthHeaderAsBearerToken, h1]

/-- Witness for C7: a well-formed bearer header yields its token, a
scheme-less value and a missing header yield null. -/
theorem fromAuthHeader_bearer_contract_witness :
    fromAuthHeaderAsBearerToken
      (.plain (some { authorization := some (.str "Bearer abc123") }) none none) =
        .ok (some "abc123") ∧
    fromAuthHeaderAsBearerToken
      (.plain (some { authorization := some (.str "abc123") }) none none) = .ok none ∧
    fromAuthHeaderAsBearerToken (.plain none none none) = .ok none := by
  refine ⟨?_, ?_, ?_⟩
  · exact (fromAuthHeader_bearer_contract _ "Bearer abc123" "Bearer" "abc123").1
      (by decide) (by decide) (by decide)
  · exact (fromAuthHeader_bearer_contract _ "abc123" "" "").2.2.1 (by decide) (by decide)
  · exact (fromAuthHeader_bearer_contract (.plain none none none) "" "" "").2.2.2.1 (by decide)

/-- C8 counterexample: the cookie extractor does not preserve a value
containing an equals sign whole; for the header "token=abc=def" it returns
"abc" (the part between the first and second equals sign), not "abc=def"
as the claim states. -/
theorem fromCookie_truncates_counterexample :
    fromCookie "token" (.incoming none { cookie := some "token=abc=def" }) =
      .ok (some "abc") ∧
    (Except.ok (some "abc") : Except Thrown (Option String)) ≠ .ok (some "abc=def") := by
  exact ⟨by decide, by decide⟩

/-- C8 amended: the cookie extractor splits the raw header on semicolons,
trims each segment and splits it on every equals sign keeping the first two
parts — truncating a value at the second equals sign — builds a mapping in
which the last occurrence of a key wins and a segment without an equals
sign stores an undefined value under its text, and returns the requested
key's value with undefined or empty normalized to null; an entirely
malformed header yields null. -/
theorem fromCookie_parse_amended :
    (∀ (name : String) (u : Option String) (hm : HeadersModel) (hdr : String),
      hm.cookie = some hdr →
      fromCookie name (.incoming u hm) = .ok (fromCookieSpecAmended name hdr)) ∧
    (∀ (name : String) (u : Option String) (hm : HeadersModel),
      hm.cookie = none → fromCookie name (.incoming u hm) = .ok none) ∧
    fromCookie "token"
      (.incoming none { cookie := some "session=abc; token=xyz; other=123" }) =
        .ok (some "xyz") ∧
    fromCookie "x" (.incoming none { cookie := some "x=1; x=2" }) = .ok (some "2") ∧
    fromCookie "x" (.incoming none { cookie := some "x=1; x" }) = .ok none ∧
    fromCookie "token" (.incoming none { cookie := some "malformed;cookie" }) = .ok none := by
  refine ⟨?_, ?_, by decide, by decide, by decide, by decide⟩
  · intro name u hm hdr hc
    simp only [fromCookie, hc]
    rw [parseCookieHeader_lastWins]
    rfl
  · intro name u hm hc
    simp [fromCookie, hc, jsOrNull, jsTruthyStr]

/-- Witness for C8 as amended: the characterization applied at a concrete
two-cookie header. -/
theorem fromCookie_parse_amended_witness :
    fromCookie "token" (.incoming none { cookie := some "a=1; token=xyz" }) =
      .ok (fromCookieSpecAmended "token" "a=1; token=xyz") :=
  fromCookie_parse_amended.1 "token" none _ "a=1; token=xyz" rfl

/-- C9 counterexample: the IncomingMessage branch of the query extractor
does not normalize an empty query value to null; for the URL "/x?token="
it returns the empty string. -/
theorem fromQueryParameter_empty_counterexample :
    fromQueryParameter "token" (.incoming (some "/x?token=") { host := some "h" }) =
      .ok (some "") ∧
    (Except.ok (some "") : Except Thrown (Option String)) ≠ .ok none := by
  exact ⟨by decide, by decide⟩

/-- C9 amended: `extractToken` treats an empty-string extractor result as
found-nothing (skipping to the next extractor, and null after the last);
the cookie extractor and the plain-object query branch normalize an empty
value to null; but the IncomingMessage query branch returns the raw
`searchParams` value, which may be the empty string. -/
theorem emptyString_found_nothing_amended :
    (∀ (req : ReqLike) (e : Extractor) (rest : List Extractor),
      e req = .ok (some "") →
      extractToken req { extractors := some (e :: rest) } =
        extractToken req { extractors := some rest }) ∧
    (∀ req : ReqLike, extractToken req { extractors := some [] } = .ok none) ∧
    (∀ (name : String) (u : Option String) (hm : HeadersModel) (hdr : String),
      hm.cookie = some hdr → objGet (parseCookieHeader hdr) name = some "" →
      fromCookie name (.incoming u hm) = .ok none) ∧
    (∀ (p : String) (hm : Option HeadersModel)
        (q c : Option (List (String × String))),
      (q.bind fun l => (l.find? (fun kv => kv.1 == p)).map (·.2)) = some "" →
      fromQueryParameter p (.plain hm q c) = .ok none) ∧
    (∀ (p : String) (u : Option String) (hm : HeadersModel) (um : UrlModel),
      parseURL (u.getD "") ("http://" ++ hm.host.getD "undefined") = some um →
      fromQueryParameter p (.incoming u hm) = .ok (searchGet um p)) := by
  refine ⟨?_, ?_, ?_, ?_, ?_⟩
  · intro req e rest he
    simp [extractToken, runExtractors, he, jsTruthyStr]
  · intro req; rfl
  · intro name u hm hdr hc hres
    simp [fromCookie, hc, hres, jsOrNull, jsTruthyStr]
  · intro p hm q c hres
    simp [fromQueryParameter, hres, jsOrNull, jsTruthyStr]
  · intro p u hm um hp
    simp [fromQueryParameter, hp]

/-- Witness for C9 as amended: an extractor returning the empty string is
skipped (leaving null when it was the last), and the cookie extractor
normalizes an empty cookie value to null. -/
theorem emptyString_found_nothing_amended_witness :
    extractToken (.plain none none none)
      { extractors := some [fun _ => .ok (some "")] } = .ok none ∧
    fromCookie "token" (.incoming none { cookie := some "token=" }) = .ok none := by
  constructor
  · rw [emptyString_found_nothing_amended.1 (.plain none none none)
      (fun _ => .ok (some "")) [] rfl]
    exact emptyString_found_nothing_amended.2.1 _
  · exact emptyString_found_nothing_amended.2.2.1 "token" none _ "token=" rfl (by decide)

/-- C4: when extraction finds no token, with credentials required (the
adapters' default) the raw-request verifier fails with code TOKEN_MISSING
and message "No authorization token was found" and the Express adapter
responds 401 with that message without continuing; with credentials not
required both adapters proceed with no payload attached and no error. -/
theorem missing_token_adapter_outcomes :
    ∀ (α : Type) (prim : String → PrimResult α) (opts : BaseJwtOptions) (req : ReqLike),
      extractToken req { extractors := opts.extractors } = .ok none →
      (opts.credentialsRequired = true →
        verifyRequest prim req opts =
          .ok { isAuthenticated := false,
                error := some { code := "TOKEN_MISSING",
                                message := "No authorization token was found" } } ∧
        expressMiddleware prim opts req =
          .status401json "No authorization token was found") ∧
      (opts.credentialsRequired = false →
        verifyRequest prim req opts = .ok { isAuthenticated := true } ∧
        expressMiddleware prim opts req = .callNext none) ∧
      ({ } : BaseJwtOptions).credentialsRequired = true := by
  intro α prim opts req h
  refine ⟨?_, ?_, rfl⟩
  · intro hc
    constructor
    · simp [verifyRequest, h, hc]
    · simp [expressMiddleware, h, hc]
  · intro hc
    constructor
    · simp [verifyRequest, h, hc]
    · simp [expressMiddleware, h, hc]

/-- Witness for C4: on a request with no credential source, default options
give the missing-token failure record, and with credentials not required
the Express adapter continues with nothing attached. -/
theorem missing_token_adapter_outcomes_witness :
    verifyRequest (fun _ => (.success 0 : PrimResult Nat)) (.plain none none none) { } =
      .ok { isAuthenticated := false,
            error := some { code := "TOKEN_MISSING",
                            message := "No authorization token was found" } } ∧
    expressMiddleware (fun _ => (.success 0 : PrimResult Nat))
      { credentialsRequired := false } (.plain none none none) = .callNext none := by
  constructor
  · exact ((missing_token_adapter_outcomes Nat _ { } _ (by decide)).1 rfl).1
  · exact ((missing_token_adapter_outcomes Nat _ { credentialsRequired := false } _
      (by decide)).2.1 rfl).2

/-- C5 counterexample: `verifyRequest` does raise — with a token present and
a primitive failing with an unclassified error, the error is re-thrown
instead of being returned as a result record. -/
theorem verifyRequest_raises_counterexample :
    verifyRequest (fun _ => (.otherThrow (.err "Error" "boom") : PrimResult Nat))
      (.plain (some { authorization := some (.str "Bearer x") }) none none) { } =
      .error (.err "Error" "boom") := by decide

/-- C5 amended: `verifyRequest` returns a result record tagged
isAuthenticated — carrying the payload on success and a structured
code-plus-message error for missing-token and classified failures — for
every outcome except unclassified exceptions, which it re-raises. -/
theorem verifyRequest_tagged_result_contract :
    ∀ (α : Type) (prim : String → PrimResult α) (opts : BaseJwtOptions) (req : ReqLike),
      (extractToken req { extractors := opts.extractors } = .ok none →
        ∃ r : VerifyRequestResult α, verifyRequest prim req opts = .ok r) ∧
      (∀ (tok : String) (p : α),
        extractToken req { extractors := opts.extractors } = .ok (some tok) → tok ≠ "" →
        verifyToken prim tok = .ok p →
        verifyRequest prim req opts =
          .ok { isAuthenticated := true, payload := some p }) ∧
      (∀ (tok n m : String),
        extractToken req { extractors := opts.extractors } = .ok (some tok) → tok ≠ "" →
        verifyToken prim tok = .error (.err n m) →
        (n = "TokenExpiredError" →
          verifyRequest prim req opts =
            .ok { isAuthenticated := false,
                  error := some { code := "TOKEN_EXPIRED",
                                  message := "Token has expired" } }) ∧
        (n = "InvalidTokenError" →
          verifyRequest prim req opts =
            .ok { isAuthenticated := false,
                  error := some { code := "TOKEN_INVALID",
                                  message := "Invalid token signature" } }) ∧
        (n = "MalformedTokenError" →
          verifyRequest prim req opts =
            .ok { isAuthenticated := false,
                  error := some { code := "TOKEN_MALFORMED",
                                  message := "Malformed token" } }) ∧
        (n ≠ "TokenExpiredError" → n ≠ "InvalidTokenError" → n ≠ "MalformedTokenError" →
          verifyRequest prim req opts = .error (.err n m))) ∧
      (∀ (tok v : String),
        extractToken req { extractors := opts.extractors } = .ok (some tok) → tok ≠ "" →
        verifyToken prim tok = .error (.nonError v) →
        verifyRequest prim req opts = .error (.nonError v)) := by
  intro α prim opts req
  refine ⟨?_, ?_, ?_, ?_⟩
  · intro h
    cases hc : opts.credentialsRequired with
    | true =>
      exact ⟨{ isAuthenticated := false,
               error := some { code := "TOKEN_MISSING",
                               message := "No authorization token was found" } },
        by simp [verifyRequest, h, hc]⟩
    | false => exact ⟨{ isAuthenticated := true }, by simp [verifyRequest, h, hc]⟩
  · intro tok p h ht hv
    simp [verifyRequest, h, ht, hv]
  · intro tok n m h ht hv
    refine ⟨?_, ?_, ?_, ?_⟩
    · intro hn
      simp [verifyRequest, h, ht, hv, verifyRequestCatch, hn]
    · intro hn
      simp [verifyRequest, h, ht, hv, verifyRequestCatch, hn]
    · intro hn
      simp [verifyRequest, h, ht, hv, verifyRequestCatch, hn]
    · intro h1 h2 h3
      simp [verifyRequest, h, ht, hv, verifyRequestCatch, h1, h2, h3]
  · intro tok v h ht hv
    simp [verifyRequest, h, ht, hv, verifyRequestCatch]

/-- Witness for C5 as amended: a classified expiry failure is returned as a
tagged record with the mapped code and message. -/
theorem verifyRequest_tagged_result_contract_witness :
    verifyRequest (fun _ => (.tokenExpired "jwt expired" : PrimResult Nat))
      (.plain (some { authorization := some (.str "Bearer t") }) none none) { } =
      .ok { isAuthenticated := false,
            error := some { code := "TOKEN_EXPIRED", message := "Token has expired" } } := by
  exact ((verifyRequest_tagged_result_contract Nat _ { } _).2.2.1 "t"
    "TokenExpiredError" "Token has expired" (by decide) (by decide) (by decide)).1 rfl

/-- C6 counterexample: an unclassified Error thrown by the verification
primitive is converted by the Express adapter into a 401 unauthorized
response carrying its message, rather than propagating to the framework's
error channel. -/
theorem express_401_on_unclassified_error :
    expressMiddleware (fun _ => (.otherThrow (.err "Error" "boom") : PrimResult Nat)) { }
      (.plain (some { authorization := some (.str "Bearer x") }) none none) =
      .status401json "boom" ∧
    (ExpressOutcome.status401json "boom" : ExpressOutcome Nat) ≠ .nextWithError "boom" := by
  exact ⟨by decide, by decide⟩

/-- C6 amended: the Express adapter translates every thrown Error instance
during verification — classified or not — into the 401 unauthorized outcome
carrying that error's message; only a thrown non-Error value propagates to
the framework's error channel via the continuation. -/
theorem express_catches_every_error :
    ∀ (α : Type) (prim : String → PrimResult α) (opts : BaseJwtOptions)
      (req : ReqLike) (tok : String),
      extractToken req { extractors := opts.extractors } = .ok (some tok) → tok ≠ "" →
      (∀ p, verifyToken prim tok = .ok p →
        expressMiddleware prim opts req = .callNext (some p)) ∧
      (∀ n m, verifyToken prim tok = .error (.err n m) →
        expressMiddleware prim opts req = .status401json m) ∧
      (∀ v, verifyToken prim tok = .error (.nonError v) →
        expressMiddleware prim opts req = .nextWithError v) := by
  intro α prim opts req tok h ht
  refine ⟨?_, ?_, ?_⟩
  · intro p hv
    simp [expressMiddleware, h, ht, hv]
  · intro n m hv
    simp [expressMiddleware, h, ht, hv, expressCatch]
  · intro v hv
    simp [expressMiddleware, h, ht, hv, expressCatch]

/-- Witness for C6 as amended: a classified expiry error yields the 401
outcome with its message, and a thrown non-Error value goes to the
continuation's error channel. -/
theorem express_catches_every_error_witness :
    expressMiddleware (fun _ => (.tokenExpired "jwt expired" : PrimResult Nat)) { }
      (.plain (some { authorization := some (.str "Bearer t") }) none none) =
      .status401json "Token has expired" ∧
    expressMiddleware (fun _ => (.otherThrow (.nonError "42") : PrimResult Nat)) { }
      (.plain (some { authorization := some (.str "Bearer t") }) none none) =
      .nextWithError "42" := by
  constructor
  · exact (express_catches_every_error Nat _ { } _ "t" (by decide) (by decide)).2.1
      "TokenExpiredError" "Token has expired" (by decide)
  · exact (express_catches_every_error Nat _ { } _ "t" (by decide) (by decide)).2.2
      "42" (by decide)

/-- C10: with no token found and credentials not required, `verifyRequest`
returns a record with isAuthenticated true and both payload and error
absent. -/
theorem passthrough_reported_authenticated :
    ∀ (α : Type) (prim : String → PrimResult α) (opts : BaseJwtOptions) (req : ReqLike),
      opts.credentialsRequired = false →
      extractToken req { extractors := opts.extractors } = .ok none →
      verifyRequest prim req opts =
        .ok { isAuthenticated := true, payload := none, error := none } := by
  intro α prim opts req hc h
  simp [verifyRequest, h, hc]

/-- Witness for C10: the pass-through record at a concrete empty request. -/
theorem passthrough_reported_authenticated_witness :
    verifyRequest (fun _ => (.success 0 : PrimResult Nat)) (.plain none none none)
      { credentialsRequired := false } =
      .ok { isAuthenticated := true, payload := none, error := none } :=
  passthrough_reported_authenticated Nat _ _ _ rfl (by decide)
